import Mathlib

/-!
Verification of the live_analyzer repository (src/multi_trader_analyzer.py and
src/risk_analyzer.py) against its natural-language specification.

Modelling conventions:
  * Python floats are modelled by exact rationals; all numeric literals in the
    claims are decimal fractions that the float pipeline treats consistently.
  * Calendar dates (the day portion of a timestamp) are modelled as natural
    numbers; only grouping and comparison of dates matters to the claims.
  * A pandas series mean over an empty selection is NaN; we model such a
    possibly-undefined value as an Option, with none standing for NaN.
  * pandas groupby orders its keys; every consumer in the code (count, sum,
    mean) is invariant under the order of groups, so groups are produced in
    List.dedup order here.
  * Fallible steps (float parsing, CSV reading) return Option / Except.
-/

attribute [local semireducible] Rat.add Rat.mul Rat.sub Rat.inv

namespace LiveAnalyzer

/-! ## Record Cleaner: multi_trader_analyzer.py lines 7 to 21 -/

/-- Embedding of extract_root_symbol, multi_trader_analyzer.py line 9:
re.sub of the pattern digit-run followed by optional letters anchored at the
end of the string, replaced by the empty string.  The leftmost such match is
the maximal trailing digit run together with the trailing letter run, so the
substitution strips the trailing letters, then the trailing digits; when there
is no trailing digit run the string is returned unchanged. -/
def extract_root_symbol (s : List Char) : List Char :=
  match s.reverse.dropWhile Char.isAlpha with
  | [] => s
  | c :: t => if c.isDigit then (t.dropWhile Char.isDigit).reverse else s

/-- A full match of the regex pattern of extract_root_symbol: one or more
digits followed by zero or more ASCII letters, covering the whole list. -/
def digitsThenLetters (l : List Char) : Bool :=
  (match l with | [] => false | c :: _ => c.isDigit) &&
    (l.dropWhile Char.isDigit).all Char.isAlpha

/-- The symbol ends with a digit run optionally followed by letters, i.e. the
regex of extract_root_symbol has a match somewhere in the string. -/
def endsDigitsLetters (s : List Char) : Bool :=
  (List.range s.length).any (fun i => digitsThenLetters (s.drop i))

/-- Model of the Python builtin float applied to an already cleaned currency
string: an optional sign, an integer part, an optional decimal point and
fraction part, at least one digit overall; none models the ValueError raised
on any other content.  (Exponent and inf/nan literal forms never arise from
currency data and are not modelled.) -/
def pyFloat (s : List Char) : Option ℚ :=
  let (neg, t) :=
    match s with
    | '-' :: r => (true, r)
    | '+' :: r => (false, r)
    | r => (false, r)
  let ip := t.takeWhile Char.isDigit
  let rest := t.dropWhile Char.isDigit
  let intVal : ℕ := ip.foldl (fun a c => 10 * a + (c.toNat - '0'.toNat)) 0
  match rest with
  | [] =>
    if ip.isEmpty then none
    else some (if neg then -(intVal : ℚ) else (intVal : ℚ))
  | '.' :: fr =>
    let fp := fr.takeWhile Char.isDigit
    let fracVal : ℕ := fp.foldl (fun a c => 10 * a + (c.toNat - '0'.toNat)) 0
    if !(fr.dropWhile Char.isDigit).isEmpty then none
    else if ip.isEmpty && fp.isEmpty then none
    else
      let v : ℚ := (intVal : ℚ) + (fracVal : ℚ) / (10 : ℚ) ^ fp.length
      some (if neg then -v else v)
  | _ => none

/-- Embedding of clean_pnl, multi_trader_analyzer.py lines 12 to 21 (string
case): remove every dollar sign and comma; if the remaining text contains both
an opening and a closing parenthesis, remove them and negate the parsed float;
otherwise parse directly.  none models the ValueError of float(). -/
def clean_pnl (s : List Char) : Option ℚ :=
  let t := s.filter (fun c => !(c == '$') && !(c == ','))
  if t.contains '(' && t.contains ')' then
    (pyFloat (t.filter (fun c => !(c == '(') && !(c == ')')))).map (fun q => -q)
  else
    pyFloat t

/-- Embedding of the PnL cleaning step of risk_analyzer.py line 16: the regex
replace removes every dollar sign, comma and parenthesis character, and the
remainder is parsed as a float.  No sign adjustment is performed. -/
def risk_clean_pnl (s : List Char) : Option ℚ :=
  pyFloat (s.filter (fun c =>
    !(c == '$') && !(c == ',') && !(c == '(') && !(c == ')')))

/-! ## Shared aggregation helpers (pandas groupby / sum / mean) -/

/-- pandas groupby with a sum aggregation: one pair per distinct key, carrying
the sum of the value column over the rows with that key.  Key order differs
from pandas (which sorts) but every consumer in the code is order invariant. -/
def groupSum {α : Type} (f : α → ℕ) (g : α → ℚ) (l : List α) : List (ℕ × ℚ) :=
  ((l.map f).dedup).map (fun k => (k, ((l.filter (fun a => decide (f a = k))).map g).sum))

/-- pandas Series.mean: NaN (modelled none) on an empty series, otherwise the
sum divided by the length. -/
def meanList (l : List ℚ) : Option ℚ :=
  match l with
  | [] => none
  | _ => some (l.sum / (l.length : ℚ))

/-! ## Per-trader analyzer: multi_trader_analyzer.py lines 24 to 45 -/

/-- A cleaned trade row as used by the multi-trader analyzer: the day portions
of the bought and sold timestamps and the cleaned signed PnL. -/
structure MTrade where
  boughtDate : ℕ
  soldDate : ℕ
  pnl : ℚ
deriving DecidableEq

/-- Embedding of the Winning Days metric, multi_trader_analyzer.py line 41:
restrict to trades with positive pnl, group them by the day portion of the
bought timestamp, sum pnl per group, and take the mean of the sums. -/
def winningDaysCode (ts : List MTrade) : Option ℚ :=
  meanList ((groupSum (fun t => t.boughtDate) (fun t => t.pnl)
    (ts.filter (fun t => decide (0 < t.pnl)))).map (fun kv => kv.2))

/-- Embedding of the Losing Days metric, multi_trader_analyzer.py line 42:
restrict to trades with negative pnl, group them by the day portion of the
bought timestamp, sum pnl per group, and take the mean of the sums. -/
def losingDaysCode (ts : List MTrade) : Option ℚ :=
  meanList ((groupSum (fun t => t.boughtDate) (fun t => t.pnl)
    (ts.filter (fun t => decide (t.pnl < 0)))).map (fun kv => kv.2))

/-- The Winning Days metric as the claim states it: group all trades by the
day portion of the sold timestamp, sum pnl per day, keep the days whose total
is positive, and take the mean of those totals. -/
def winningDaysClaim (ts : List MTrade) : Option ℚ :=
  meanList (((groupSum (fun t => t.soldDate) (fun t => t.pnl) ts).filter
    (fun kv => decide (0 < kv.2))).map (fun kv => kv.2))

/-- The Losing Days metric as the claim states it: group all trades by the
day portion of the sold timestamp, sum pnl per day, keep the days whose total
is negative, and take the mean of those totals. -/
def losingDaysClaim (ts : List MTrade) : Option ℚ :=
  meanList (((groupSum (fun t => t.soldDate) (fun t => t.pnl) ts).filter
    (fun kv => decide (kv.2 < 0))).map (fun kv => kv.2))

/-- The Winning Days metric as the code actually behaves, stated from the
amended reading: over the distinct bought days that carry at least one
positive trade, the mean of the per-day sums of the positive trades only. -/
def winningDaysAmended (ts : List MTrade) : Option ℚ :=
  meanList ((((ts.filter (fun t => decide (0 < t.pnl))).map
      (fun t => t.boughtDate)).dedup).map
    (fun d => ((ts.filter (fun t =>
      decide (0 < t.pnl) && decide (t.boughtDate = d))).map (fun t => t.pnl)).sum))

/-- The Losing Days metric as the code actually behaves, stated from the
amended reading: over the distinct bought days that carry at least one
negative trade, the mean of the per-day sums of the negative trades only. -/
def losingDaysAmended (ts : List MTrade) : Option ℚ :=
  meanList ((((ts.filter (fun t => decide (t.pnl < 0))).map
      (fun t => t.boughtDate)).dedup).map
    (fun d => ((ts.filter (fun t =>
      decide (t.pnl < 0) && decide (t.boughtDate = d))).map (fun t => t.pnl)).sum))

/-! ## Risk analyzer: risk_analyzer.py lines 10 to 63 -/

/-- A cleaned row of a trader CSV as used by the risk analyzer: quantity, buy
price, the day portion of the sold timestamp, and the cleaned PnL. -/
structure RiskRow where
  qty : ℚ
  buyPrice : ℚ
  soldDate : ℕ
  pnl : ℚ
deriving DecidableEq

/-- position_size, risk_analyzer.py line 20: quantity times buy price. -/
def position_size (r : RiskRow) : ℚ := r.qty * r.buyPrice

/-- pandas Series.max with the default NaN skipping: NaN (modelled none) on an
empty series, otherwise the maximum. -/
def seriesMax : List ℚ → Option ℚ
  | [] => none
  | x :: xs => some (xs.foldl max x)

/-- initial_balance, risk_analyzer.py line 21: the maximum position size over
the record set; NaN (none) when the record set is empty. -/
def initialBalance (rows : List RiskRow) : Option ℚ :=
  seriesMax (rows.map position_size)

/-- The daily groupby of risk_analyzer.py lines 24 to 27: per sold day, the
sum of the PnL of the trades sold that day. -/
def dailySums (rows : List RiskRow) : List (ℕ × ℚ) :=
  groupSum (fun r => r.soldDate) (fun r => r.pnl) rows

/-- len(valid_days), risk_analyzer.py lines 30 to 32: the number of days whose
summed PnL is at least the required daily profit. -/
def validDayCount (rows : List RiskRow) (required : ℚ) : ℕ :=
  ((dailySums rows).filter (fun kv => decide (required ≤ kv.2))).length

/-- total_profit, risk_analyzer.py line 34: the sum of the daily PnL sums. -/
def totalProfit (rows : List RiskRow) : ℚ :=
  ((dailySums rows).map (fun kv => kv.2)).sum

/-- The record returned by analyze_trader, risk_analyzer.py lines 50 to 59
(without the trader name, which is taken from the file, not the data).
initial_balance and roi are NaN (none) for an empty record set. -/
structure RiskResult where
  initial_balance : Option ℚ
  qualifies : Bool
  total_profit : ℚ
  bonus_cost : ℚ
  company_profit : ℚ
  net_cost : ℚ
  roi : Option ℚ
deriving DecidableEq

/-- Embedding of analyze_trader, risk_analyzer.py lines 10 to 59, on a record
set that has already been read and cleaned.  sessionBonusPct is the ambient
st.session_state.bonus_pct read at line 42, made an explicit argument so that
the dependence of the result on the process-wide state can be stated.  For an
empty record set initial_balance is NaN (none); a comparison against the NaN
required profit or NaN threshold is false, as in Python.  (The division of
roi by a zero initial balance, which numpy turns into inf or nan rather than
an exception, is not exercised by any claim.) -/
def analyzeTrader (rows : List RiskRow) (minDays : ℕ)
    (dailyTh totalTh sessionBonusPct : ℚ) : RiskResult :=
  let b := initialBalance rows
  let valid := match b with
    | some bb => validDayCount rows (bb * dailyTh)
    | none => 0
  let total := totalProfit rows
  let q := decide (minDays ≤ valid) &&
    (match b with
     | some bb => decide (bb * totalTh ≤ total)
     | none => false)
  let bonusAmount := total * (sessionBonusPct / 100)
  let companyShare := total * (10 / 100)
  let bonus := if q then bonusAmount else 0
  let share := if q then companyShare else 0
  let net := if q then bonusAmount - companyShare else 0
  { initial_balance := b
    qualifies := q
    total_profit := total
    bonus_cost := bonus
    company_profit := share
    net_cost := net
    roi := b.map (fun bb => (share - bonus) / bb * 100) }

/-! ## Batch loops over uploaded files -/

/-- One iteration of an upload loop: a successful analysis appends its result
to the collected results, a failed one appends its report to the errors. -/
def accStep {φ ρ : Type} (h : φ → Except String ρ)
    (acc : List ρ × List String) (f : φ) : List ρ × List String :=
  match h f with
  | .ok r => (acc.1 ++ [r], acc.2)
  | .error e => (acc.1, acc.2 ++ [e])

/-- The per-file outcomes of a batch: the analysis results of the files that
succeed and the error messages shown by st.error for the files that fail. -/
def accumulate {φ ρ : Type} (h : φ → Except String ρ) (files : List φ) :
    List ρ × List String :=
  files.foldl (accStep h) ([], [])

/-- An uploaded file for the risk analyzer: its name and the outcome of
reading and cleaning it (read_csv, the PnL regex replace and the float
conversion may all raise; the exception text is carried in the error). -/
structure RiskFile where
  name : String
  rows : Except String (List RiskRow)

/-- analyze_trader at the file level, risk_analyzer.py lines 10 to 63: on any
exception the message of st.error at line 62 identifies the file and the
function returns None (here the error branch); otherwise the analysis runs on
the cleaned rows. -/
def analyzeFileRisk (minDays : ℕ) (dailyTh totalTh sessionBonusPct : ℚ)
    (f : RiskFile) : Except String RiskResult :=
  match f.rows with
  | .ok rows => .ok (analyzeTrader rows minDays dailyTh totalTh sessionBonusPct)
  | .error e => .error ("Error analyzing " ++ f.name ++ ": " ++ e)

/-- The upload loop of risk_analyzer.py lines 83 to 87: every file is
analyzed in order; a returned result is appended to results, a failed file
only produces its error report. -/
def processFilesRisk (minDays : ℕ) (dailyTh totalTh sessionBonusPct : ℚ)
    (files : List RiskFile) : List RiskResult × List String :=
  accumulate (analyzeFileRisk minDays dailyTh totalTh sessionBonusPct) files

/-- The metrics record of the multi-trader analyzer restricted to the fields
the claims are about (multi_trader_analyzer.py lines 37 to 44). -/
structure MTMetrics where
  winningDays : Option ℚ
  losingDays : Option ℚ
deriving DecidableEq

/-- analyze_trader of multi_trader_analyzer.py lines 24 to 45, on cleaned
trades, restricted to the metrics the claims are about. -/
def analyzeTraderMT (ts : List MTrade) : MTMetrics :=
  { winningDays := winningDaysCode ts, losingDays := losingDaysCode ts }

/-- An uploaded file for the multi-trader analyzer: its name and the outcome
of reading and parsing it. -/
structure MTFile where
  name : String
  rows : Except String (List MTrade)

/-- The per-file step of the loop of multi_trader_analyzer.py lines 56 to 65:
on any exception the message of st.error at line 65 identifies the file. -/
def analyzeFileMT (f : MTFile) : Except String MTMetrics :=
  match f.rows with
  | .ok ts => .ok (analyzeTraderMT ts)
  | .error e => .error ("Error processing " ++ f.name ++ ": " ++ e)

/-- The upload loop of multi_trader_analyzer.py lines 56 to 65. -/
def processFilesMT (files : List MTFile) : List MTMetrics × List String :=
  accumulate analyzeFileMT files

/-! ## Concrete inputs used in scenarios, counterexamples and witnesses -/

/-- The scenario trader of the spec: seven trading days with daily PnL sums
120, -50, 200, 80, -30, 150, 90, one trade per day, every trade of quantity 1
at buy price 1000, so the maximum position size is 1000. -/
def rows7 : List RiskRow :=
  [⟨1, 1000, 1, 120⟩, ⟨1, 1000, 2, -50⟩, ⟨1, 1000, 3, 200⟩, ⟨1, 1000, 4, 80⟩,
   ⟨1, 1000, 5, -30⟩, ⟨1, 1000, 6, 150⟩, ⟨1, 1000, 7, 90⟩]

/-- A single-trade record set: position size 1000 and one day of PnL 560, so
the trader qualifies under minDays 1, daily threshold 4 percent and total
threshold 50 percent. -/
def rows1 : List RiskRow := [⟨1, 1000, 1, 560⟩]

/-- A record set whose maximum position size is negative: one short position
of quantity -1 at buy price 100 with a one-day loss of 150. -/
def rowsNeg : List RiskRow := [⟨-1, 100, 1, -150⟩]

/-- Two trades bought on day 1 and sold on day 2, one winning 100 and one
losing 200: the sold day has a negative total, yet the code counts a winning
bought day worth 100. -/
def exMT1 : List MTrade := [⟨1, 2, 100⟩, ⟨1, 2, -200⟩]

/-- Two winning trades sold on the same day 3 but bought on days 1 and 2: the
claim groups them into one sold day worth 110, the code into two bought days
worth 50 and 60. -/
def exMT2 : List MTrade := [⟨1, 3, 50⟩, ⟨2, 3, 60⟩]

/-- A risk-analyzer upload that parses cleanly. -/
def fileA : RiskFile := ⟨"alice", .ok rows1⟩

/-- A risk-analyzer upload whose parse step raises. -/
def fileBad : RiskFile := ⟨"bob", .error "could not convert string to float"⟩

/-- A second clean risk-analyzer upload. -/
def fileC : RiskFile := ⟨"carol", .ok rows7⟩

/-- A multi-trader upload that parses cleanly. -/
def mfileA : MTFile := ⟨"dave", .ok exMT1⟩

/-- A multi-trader upload whose parse step raises. -/
def mfileBad : MTFile := ⟨"erin", .error "boom"⟩

/-! ## Helper lemmas -/

theorem mem_of_mem_dropWhile {α : Type} {p : α → Bool} {a : α} :
    ∀ {l : List α}, a ∈ l.dropWhile p → a ∈ l := by
  intro l
  induction l with
  | nil => intro h; simp at h
  | cons c t ih =>
    intro h
    rw [List.dropWhile_cons] at h
    split at h
    · exact List.mem_cons_of_mem _ (ih h)
    · exact h

theorem dropWhile_append_all {α : Type} {p : α → Bool} :
    ∀ {l₁ : List α}, (∀ a ∈ l₁, p a = true) →
      ∀ l₂ : List α, (l₁ ++ l₂).dropWhile p = l₂.dropWhile p := by
  intro l₁
  induction l₁ with
  | nil => intro _ l₂; rfl
  | cons c t ih =>
    intro h l₂
    rw [List.cons_append, List.dropWhile_cons]
    rw [h c (List.mem_cons_self c t)]
    exact ih (fun a ha => h a (List.mem_cons_of_mem c ha)) l₂

theorem extract_root_symbol_nil {s : List Char}
    (h : s.reverse.dropWhile Char.isAlpha = []) : extract_root_symbol s = s := by
  unfold extract_root_symbol
  rw [h]

theorem extract_root_symbol_cons {s : List Char} {c : Char} {t : List Char}
    (h : s.reverse.dropWhile Char.isAlpha = c :: t) :
    extract_root_symbol s =
      if c.isDigit then (t.dropWhile Char.isDigit).reverse else s := by
  unfold extract_root_symbol
  rw [h]

theorem root_decomp {s : List Char} {c : Char} {t : List Char}
    (h : s.reverse.dropWhile Char.isAlpha = c :: t) :
    s = (t.dropWhile Char.isDigit).reverse ++
        (((t.takeWhile Char.isDigit).reverse ++ [c]) ++
          (s.reverse.takeWhile Char.isAlpha).reverse) := by
  have h1 : s.reverse = s.reverse.takeWhile Char.isAlpha ++ (c :: t) := by
    conv_lhs => rw [← List.takeWhile_append_dropWhile Char.isAlpha s.reverse]
    rw [h]
  have h2 : (t : List Char) = t.takeWhile Char.isDigit ++ t.dropWhile Char.isDigit :=
    (List.takeWhile_append_dropWhile Char.isDigit t).symm
  rw [← List.reverse_inj]
  conv_lhs => rw [h1]
  conv_lhs => rw [h2]
  simp [List.reverse_append]

theorem digitsThenLetters_cons (c : Char) (t : List Char) :
    digitsThenLetters (c :: t) =
      (c.isDigit && ((c :: t).dropWhile Char.isDigit).all Char.isAlpha) := rfl

theorem digitsThenLetters_of_parts {d l : List Char} (hd : d ≠ [])
    (h1 : ∀ a ∈ d, a.isDigit = true) (h2 : ∀ a ∈ l, a.isAlpha = true) :
    digitsThenLetters (d ++ l) = true := by
  match d, hd with
  | x :: xs, _ =>
    have hx : x.isDigit = true := h1 x (List.mem_cons_self x xs)
    have hdrop : ((x :: xs) ++ l).dropWhile Char.isDigit = l.dropWhile Char.isDigit :=
      dropWhile_append_all h1 l
    rw [List.cons_append] at hdrop
    rw [List.cons_append, digitsThenLetters_cons, hdrop, hx]
    simp only [Bool.true_and]
    rw [List.all_eq_true]
    intro a ha
    exact h2 a (mem_of_mem_dropWhile ha)

theorem extract_fix_of_no_digit {s : List Char}
    (h : ∀ a ∈ s, a.isDigit = false) : extract_root_symbol s = s := by
  cases hd : s.reverse.dropWhile Char.isAlpha with
  | nil => exact extract_root_symbol_nil hd
  | cons c t =>
    have hc : c ∈ s := by
      have : c ∈ s.reverse.dropWhile Char.isAlpha := by
        rw [hd]; exact List.mem_cons_self c t
      exact (List.mem_reverse).mp (mem_of_mem_dropWhile this)
    rw [extract_root_symbol_cons hd, h c hc]
    simp

theorem accStep_shift {φ ρ : Type} (h : φ → Except String ρ) :
    ∀ (fs : List φ) (a : List ρ) (b : List String),
      fs.foldl (accStep h) (a, b) =
        (a ++ (accumulate h fs).1, b ++ (accumulate h fs).2) := by
  intro fs
  induction fs with
  | nil => intro a b; simp [accumulate]
  | cons f fs ih =>
    intro a b
    rw [List.foldl_cons]
    show List.foldl (accStep h) (accStep h (a, b) f) fs = _
    have hacc : accumulate h (f :: fs) = List.foldl (accStep h) (accStep h ([], []) f) fs := rfl
    cases hf : h f with
    | ok r =>
      have hstep : accStep h (a, b) f = (a ++ [r], b) := by simp [accStep, hf]
      have hstep0 : accStep h ([], []) f = ([r], []) := by simp [accStep, hf]
      rw [hstep, ih (a ++ [r]) b, hacc, hstep0, ih [r] []]
      simp
    | error e =>
      have hstep : accStep h (a, b) f = (a, b ++ [e]) := by simp [accStep, hf]
      have hstep0 : accStep h ([], []) f = ([], [e]) := by simp [accStep, hf]
      rw [hstep, ih a (b ++ [e]), hacc, hstep0, ih [] [e]]
      simp

theorem accumulate_append {φ ρ : Type} (h : φ → Except String ρ)
    (xs ys : List φ) :
    accumulate h (xs ++ ys) =
      ((accumulate h xs).1 ++ (accumulate h ys).1,
       (accumulate h xs).2 ++ (accumulate h ys).2) := by
  unfold accumulate
  rw [List.foldl_append]
  have := accStep_shift h ys (accumulate h xs).1 (accumulate h xs).2
  unfold accumulate at this
  rw [← this]

theorem accumulate_cons_error {φ ρ : Type} {h : φ → Except String ρ} {f : φ}
    {e : String} (hf : h f = .error e) (fs : List φ) :
    accumulate h (f :: fs) = ((accumulate h fs).1, e :: (accumulate h fs).2) := by
  unfold accumulate
  rw [List.foldl_cons]
  have hstep0 : accStep h ([], []) f = ([], [e]) := by simp [accStep, hf]
  rw [hstep0, accStep_shift h fs [] [e]]
  simp [accumulate]

theorem qualifies_iff {rows : List RiskRow} {m : ℕ} {dt tt p bb : ℚ}
    (hb : initialBalance rows = some bb) :
    ((analyzeTrader rows m dt tt p).qualifies = true) ↔
      (m ≤ validDayCount rows (bb * dt) ∧ bb * tt ≤ totalProfit rows) := by
  simp [analyzeTrader, hb]

theorem qualifies_none {rows : List RiskRow} {m : ℕ} {dt tt p : ℚ}
    (hb : initialBalance rows = none) :
    (analyzeTrader rows m dt tt p).qualifies = false := by
  simp [analyzeTrader, hb]

theorem analyzeTrader_bonus_eq (rows : List RiskRow) (m : ℕ) (dt tt p : ℚ) :
    (analyzeTrader rows m dt tt p).bonus_cost =
      if (analyzeTrader rows m dt tt p).qualifies then
        totalProfit rows * (p / 100) else 0 := rfl

theorem analyzeTrader_share_eq (rows : List RiskRow) (m : ℕ) (dt tt p : ℚ) :
    (analyzeTrader rows m dt tt p).company_profit =
      if (analyzeTrader rows m dt tt p).qualifies then
        totalProfit rows * (10 / 100) else 0 := rfl

theorem analyzeTrader_net_eq (rows : List RiskRow) (m : ℕ) (dt tt p : ℚ) :
    (analyzeTrader rows m dt tt p).net_cost =
      if (analyzeTrader rows m dt tt p).qualifies then
        totalProfit rows * (p / 100) - totalProfit rows * (10 / 100) else 0 := rfl

theorem groupSum_filter_snd {P : MTrade → Bool} (ts : List MTrade) :
    (groupSum (fun t => t.boughtDate) (fun t => t.pnl) (ts.filter P)).map
        (fun kv => kv.2) =
      (((ts.filter P).map (fun t => t.boughtDate)).dedup).map
        (fun d => ((ts.filter (fun t =>
          P t && decide (t.boughtDate = d))).map (fun t => t.pnl)).sum) := by
  unfold groupSum
  rw [List.map_map]
  apply List.map_congr_left
  intro k _
  simp only [Function.comp_apply]
  rw [List.filter_filter]
  congr 2
  apply List.filter_congr
  intro a _
  exact Bool.and_comm _ _

/-! ## Claim theorems -/

/-- C1, counterexample: on a qualifying single-day trader with total profit
560 and ambient bonus percentage 5 (the lower end of the slider), the code
returns net_cost -28, which is negative and differs from the clamped value
max(bonusCost - companyProfitShare, 0) = 0 demanded by the claim. -/
theorem C1_net_cost_ctex :
    (analyzeTrader rows1 1 (4 / 100) (1 / 2) 5).qualifies = true ∧
    (analyzeTrader rows1 1 (4 / 100) (1 / 2) 5).net_cost = -28 ∧
    (analyzeTrader rows1 1 (4 / 100) (1 / 2) 5).net_cost < 0 ∧
    max ((analyzeTrader rows1 1 (4 / 100) (1 / 2) 5).bonus_cost -
         (analyzeTrader rows1 1 (4 / 100) (1 / 2) 5).company_profit) 0 = 0 := by
  decide

/-- C1, amended: analyze_trader never clamps: net_cost always equals
bonusCost - companyProfitShare, so it can be negative; it is nonnegative
whenever the ambient bonus percentage is at least the fixed 10 percent profit
share rate and the total profit is nonnegative. -/
theorem C1_net_cost_amended :
    ∀ (rows : List RiskRow) (m : ℕ) (dt tt p : ℚ),
      (analyzeTrader rows m dt tt p).net_cost =
        (analyzeTrader rows m dt tt p).bonus_cost -
          (analyzeTrader rows m dt tt p).company_profit ∧
      (10 ≤ p → 0 ≤ totalProfit rows →
        0 ≤ (analyzeTrader rows m dt tt p).net_cost) := by
  intro rows m dt tt p
  rw [analyzeTrader_net_eq, analyzeTrader_bonus_eq, analyzeTrader_share_eq]
  cases hq : (analyzeTrader rows m dt tt p).qualifies with
  | false => exact ⟨by simp, fun _ _ => by simp⟩
  | true =>
    refine ⟨by simp, fun h10 htot => ?_⟩
    simp only [if_true]
    rw [sub_nonneg]
    apply mul_le_mul_of_nonneg_left _ htot
    exact (div_le_div_iff_of_pos_right (by norm_num : (0 : ℚ) < 100)).mpr h10

/-- C1, witness for the amended theorem at the scenario trader with the
default bonus percentage 20. -/
theorem C1_net_cost_amended_witness :
    (analyzeTrader rows7 3 (4 / 100) (1 / 2) 20).net_cost =
        (analyzeTrader rows7 3 (4 / 100) (1 / 2) 20).bonus_cost -
          (analyzeTrader rows7 3 (4 / 100) (1 / 2) 20).company_profit ∧
      ((10 : ℚ) ≤ 20 ∧ 0 ≤ totalProfit rows7 ∧
        0 ≤ (analyzeTrader rows7 3 (4 / 100) (1 / 2) 20).net_cost) :=
  ⟨(C1_net_cost_amended rows7 3 (4 / 100) (1 / 2) 20).1,
   by norm_num, by decide,
   (C1_net_cost_amended rows7 3 (4 / 100) (1 / 2) 20).2 (by norm_num) (by decide)⟩

/-- C2: the risk analyzer parses the parenthesized source string (100) to the
positive value 100 - its regex deletes the parentheses without negating -
while clean_pnl of the multi-trader analyzer, following the repository
convention that parentheses denote a negative amount, parses it to -100.
This evaluates the code at the failing input of the recorded bug. -/
theorem C2_paren_sign_bug :
    risk_clean_pnl ['(', '1', '0', '0', ')'] = some 100 ∧
    clean_pnl ['(', '1', '0', '0', ')'] = some (-100) ∧
    ¬ (100 : ℚ) < 0 := by
  decide

/-- C3, counterexample: for two trades bought on day 1 and sold on day 2 with
PnL 100 and -200, the sold day has total -100, so the claimed Winning Days
metric is undefined and the claimed Losing Days metric is -100; the code
instead reports a winning bought day of 100 and a losing bought day of -200,
because it filters trades by sign before summing and groups by the bought
timestamp.  For two trades sold on the same day 3 but bought on days 1 and 2
with PnL 50 and 60, the claimed metric is 110 and the code reports 55. -/
theorem C3_winning_losing_days_ctex :
    winningDaysCode exMT1 = some 100 ∧ winningDaysClaim exMT1 = none ∧
    losingDaysCode exMT1 = some (-200) ∧ losingDaysClaim exMT1 = some (-100) ∧
    winningDaysCode exMT2 = some 55 ∧ winningDaysClaim exMT2 = some 110 ∧
    winningDaysCode exMT1 ≠ winningDaysClaim exMT1 ∧
    losingDaysCode exMT1 ≠ losingDaysClaim exMT1 ∧
    winningDaysCode exMT2 ≠ winningDaysClaim exMT2 := by
  decide

/-- C3, amended: the Winning Days metric equals the mean, over the distinct
bought calendar days carrying at least one positive-PnL trade, of the per-day
sums of the positive-PnL trades only; Losing Days is the symmetric metric
over negative-PnL trades.  (Days are classified by the bought, not the sold,
timestamp, and a day's sum ignores the trades of the opposite sign.) -/
theorem C3_winning_losing_days_amended :
    ∀ ts : List MTrade,
      winningDaysCode ts = winningDaysAmended ts ∧
      losingDaysCode ts = losingDaysAmended ts := by
  intro ts
  exact ⟨congrArg meanList (groupSum_filter_snd ts),
         congrArg meanList (groupSum_filter_snd ts)⟩

/-- C4, counterexample: extract_root_symbol is not idempotent: on the symbol
A1B2C one application yields A1B (stripping the match 2C), and a second
application strips 1B as well, yielding A. -/
theorem C4_root_idempotence_ctex :
    extract_root_symbol (extract_root_symbol ['A', '1', 'B', '2', 'C']) ≠
      extract_root_symbol ['A', '1', 'B', '2', 'C'] := by
  decide

/-- C4, amended: extraction is idempotent on every symbol whose extracted
root contains no digit (in particular on ordinary contract codes such as
NQZ5); it fails to be idempotent only when a digit survives in the root. -/
theorem C4_root_idempotence_amended :
    ∀ s : List Char, (∀ a ∈ extract_root_symbol s, a.isDigit = false) →
      extract_root_symbol (extract_root_symbol s) = extract_root_symbol s :=
  fun _ h => extract_fix_of_no_digit h

/-- C4, witness for the amended theorem at the symbol NQZ5. -/
theorem C4_root_idempotence_amended_witness :
    (∀ a ∈ extract_root_symbol ['N', 'Q', 'Z', '5'], a.isDigit = false) ∧
    extract_root_symbol (extract_root_symbol ['N', 'Q', 'Z', '5']) =
      extract_root_symbol ['N', 'Q', 'Z', '5'] :=
  ⟨by decide, C4_root_idempotence_amended ['N', 'Q', 'Z', '5'] (by decide)⟩

/-- C5: for any record set with a defined initial balance (the maximum
position size), the trader qualifies exactly when the number of days whose
summed PnL reaches the required daily profit is at least minDays and the
total profit reaches the total threshold; and on the scenario trader with
daily sums 120, -50, 200, 80, -30, 150, 90, balance 1000, thresholds 4
percent daily, 3 days, 50 percent total and bonus percentage 20, the code
returns qualifies with bonusCost 112, companyProfitShare 56, netCost 56. -/
theorem C5_qualification_rule :
    ∀ (rows : List RiskRow) (m : ℕ) (dt tt p bb : ℚ),
      initialBalance rows = some bb →
      ((((analyzeTrader rows m dt tt p).qualifies = true) ↔
          (m ≤ validDayCount rows (bb * dt) ∧ bb * tt ≤ totalProfit rows)) ∧
        ((analyzeTrader rows7 3 (4 / 100) (1 / 2) 20).qualifies = true ∧
         (analyzeTrader rows7 3 (4 / 100) (1 / 2) 20).bonus_cost = 112 ∧
         (analyzeTrader rows7 3 (4 / 100) (1 / 2) 20).company_profit = 56 ∧
         (analyzeTrader rows7 3 (4 / 100) (1 / 2) 20).net_cost = 56)) := by
  intro rows m dt tt p bb hb
  exact ⟨qualifies_iff hb, by decide⟩

/-- C5, witness at the scenario trader itself. -/
theorem C5_qualification_rule_witness :
    initialBalance rows7 = some 1000 ∧
    ((((analyzeTrader rows7 3 (4 / 100) (1 / 2) 20).qualifies = true) ↔
        (3 ≤ validDayCount rows7 (1000 * (4 / 100)) ∧
          1000 * (1 / 2) ≤ totalProfit rows7)) ∧
      ((analyzeTrader rows7 3 (4 / 100) (1 / 2) 20).qualifies = true ∧
       (analyzeTrader rows7 3 (4 / 100) (1 / 2) 20).bonus_cost = 112 ∧
       (analyzeTrader rows7 3 (4 / 100) (1 / 2) 20).company_profit = 56 ∧
       (analyzeTrader rows7 3 (4 / 100) (1 / 2) 20).net_cost = 56)) :=
  ⟨by decide, C5_qualification_rule rows7 3 (4 / 100) (1 / 2) 20 1000 (by decide)⟩

/-- C6, counterexample: with a record set whose maximum position size is
negative (a short position of quantity -1 at price 100, one losing day of
-150), raising the total profit threshold from 100 percent to 200 percent
turns a non-qualifying trader into a qualifying one, because the threshold
value -100 drops to -200 below the total profit -150. -/
theorem C6_monotonicity_ctex :
    (analyzeTrader rowsNeg 0 (4 / 100) 1 20).qualifies = false ∧
    (analyzeTrader rowsNeg 0 (4 / 100) 2 20).qualifies = true ∧
    (1 : ℚ) ≤ 2 := by
  decide

/-- C6, amended: qualification is monotonic in minDays unconditionally - for
every record set, including an empty one or one with a negative maximum
position size, a non-qualifying trader stays non-qualifying under a larger
minDays with the total threshold held fixed - and monotonic in the total
threshold (jointly with minDays) whenever the initial balance (maximum
position size) is nonnegative, which holds for every real trade set. -/
theorem C6_monotonicity_amended :
    ∀ (rows : List RiskRow) (m m' : ℕ) (dt tt tt' p : ℚ),
      (m ≤ m' →
        (analyzeTrader rows m dt tt p).qualifies = false →
        (analyzeTrader rows m' dt tt p).qualifies = false) ∧
      (∀ bb : ℚ, initialBalance rows = some bb → 0 ≤ bb → m ≤ m' → tt ≤ tt' →
        (analyzeTrader rows m dt tt p).qualifies = false →
        (analyzeTrader rows m' dt tt' p).qualifies = false) := by
  intro rows m m' dt tt tt' p
  constructor
  · intro hm hq
    cases hb : initialBalance rows with
    | none => exact qualifies_none hb
    | some bb =>
      cases hq' : (analyzeTrader rows m' dt tt p).qualifies with
      | false => rfl
      | true =>
        exfalso
        obtain ⟨h1, h2⟩ := (qualifies_iff hb).mp hq'
        have hqt : (analyzeTrader rows m dt tt p).qualifies = true :=
          (qualifies_iff hb).mpr ⟨le_trans hm h1, h2⟩
        rw [hq] at hqt
        exact Bool.false_ne_true hqt
  · intro bb hb hbb hm htt hq
    cases hq' : (analyzeTrader rows m' dt tt' p).qualifies with
    | false => rfl
    | true =>
      exfalso
      obtain ⟨h1, h2⟩ := (qualifies_iff hb).mp hq'
      have hqt : (analyzeTrader rows m dt tt p).qualifies = true :=
        (qualifies_iff hb).mpr ⟨le_trans hm h1,
          le_trans (mul_le_mul_of_nonneg_left htt hbb) h2⟩
      rw [hq] at hqt
      exact Bool.false_ne_true hqt

/-- C6, witness: the unconditional minDays part applied to the
negative-balance record set (non-qualifying at minDays 1, hence at 2, with
the threshold fixed), and the joint part applied to the scenario trader with
its positive balance 1000, non-qualifying at minDays 10, hence at minDays 12
with the total threshold raised from 50 to 60 percent. -/
theorem C6_monotonicity_amended_witness :
    ((1 : ℕ) ≤ 2 ∧
      (analyzeTrader rowsNeg 1 (4 / 100) 1 20).qualifies = false ∧
      (analyzeTrader rowsNeg 2 (4 / 100) 1 20).qualifies = false) ∧
    (initialBalance rows7 = some 1000 ∧ (0 : ℚ) ≤ 1000 ∧ (10 : ℕ) ≤ 12 ∧
      ((1 : ℚ) / 2 ≤ 3 / 5) ∧
      (analyzeTrader rows7 10 (4 / 100) (1 / 2) 20).qualifies = false ∧
      (analyzeTrader rows7 12 (4 / 100) (3 / 5) 20).qualifies = false) :=
  ⟨⟨by norm_num, by decide,
    (C6_monotonicity_amended rowsNeg 1 2 (4 / 100) 1 1 20).1
      (by norm_num) (by decide)⟩,
   ⟨by decide, by norm_num, by norm_num, by norm_num, by decide,
    (C6_monotonicity_amended rows7 10 12 (4 / 100) (1 / 2) (3 / 5) 20).2 1000
      (by decide) (by norm_num) (by norm_num) (by norm_num) (by decide)⟩⟩

/-- C7, counterexample: on an empty record set analyze_trader does not fail
with an InsufficientData error: it returns an ordinary result record whose
initial balance is the NaN of an empty maximum (modelled none), with
qualifies false, all monetary outputs 0 and a NaN roi. -/
theorem C7_empty_input_ctex :
    analyzeTrader [] 7 (4 / 100) (1 / 2) 20 =
      ⟨none, false, 0, 0, 0, 0, none⟩ := by
  decide

/-- C7, amended: for every configuration, the empty record set produces a
normal result record - no error is raised - with qualifies false, all
monetary outputs 0, and the initial balance and roi reported as NaN
(modelled none) rather than by an explicit InsufficientData failure. -/
theorem C7_empty_input_amended :
    ∀ (m : ℕ) (dt tt p : ℚ),
      analyzeTrader [] m dt tt p = ⟨none, false, 0, 0, 0, 0, none⟩ := by
  intro m dt tt p
  simp [analyzeTrader, initialBalance, seriesMax, dailySums, groupSum,
    totalProfit, validDayCount]

/-- C8, counterexample: two runs of analyze_trader on identical trade data
and identical explicit slider configuration, differing only in the ambient
session-state bonus percentage (20 versus 40), return different bonus costs:
the result is not a pure function of the explicit inputs. -/
theorem C8_ambient_bonus_ctex :
    (analyzeTrader rows1 1 (4 / 100) (1 / 2) 20).bonus_cost ≠
      (analyzeTrader rows1 1 (4 / 100) (1 / 2) 40).bonus_cost := by
  decide

/-- C8, amended: analyze_trader is deterministic in its explicit inputs
together with the ambient bonus percentage: the qualification decision does
not depend on the ambient value at all, while the bonus cost of a qualifying
trader is exactly totalProfit times the ambient percentage over 100, making
the dependence on the process-wide state explicit. -/
theorem C8_ambient_bonus_amended :
    ∀ (rows : List RiskRow) (m : ℕ) (dt tt p p' : ℚ),
      (analyzeTrader rows m dt tt p).qualifies =
          (analyzeTrader rows m dt tt p').qualifies ∧
        ((analyzeTrader rows m dt tt p).qualifies = true →
          (analyzeTrader rows m dt tt p).bonus_cost =
            totalProfit rows * (p / 100)) := by
  intro rows m dt tt p p'
  refine ⟨rfl, fun hq => ?_⟩
  rw [analyzeTrader_bonus_eq, hq]
  simp

/-- C8, witness at the qualifying one-day trader with ambient percentages 20
and 40. -/
theorem C8_ambient_bonus_amended_witness :
    ((analyzeTrader rows1 1 (4 / 100) (1 / 2) 20).qualifies =
        (analyzeTrader rows1 1 (4 / 100) (1 / 2) 40).qualifies) ∧
      (analyzeTrader rows1 1 (4 / 100) (1 / 2) 20).bonus_cost =
        totalProfit rows1 * (20 / 100) :=
  ⟨(C8_ambient_bonus_amended rows1 1 (4 / 100) (1 / 2) 20 40).1,
   (C8_ambient_bonus_amended rows1 1 (4 / 100) (1 / 2) 20 40).2 (by decide)⟩

/-- C9: in both upload loops, a file whose reading or cleaning raises is
excluded from the batch and reported with a message carrying its file name,
while every other file, before or after it, still contributes exactly its
own analysis result: the batch over xs ++ bad :: ys yields the results of xs
followed by the results of ys, and the errors of xs, then the report for
bad, then the errors of ys. -/
theorem C9_failure_isolation :
    ∀ (m : ℕ) (dt tt p : ℚ) (xs ys : List RiskFile) (bf : RiskFile)
      (e : String) (xs2 ys2 : List MTFile) (bf2 : MTFile) (e2 : String),
      bf.rows = .error e → bf2.rows = .error e2 →
      (processFilesRisk m dt tt p (xs ++ bf :: ys) =
        ((processFilesRisk m dt tt p xs).1 ++ (processFilesRisk m dt tt p ys).1,
         (processFilesRisk m dt tt p xs).2 ++
           ("Error analyzing " ++ bf.name ++ ": " ++ e) ::
             (processFilesRisk m dt tt p ys).2)) ∧
      (processFilesMT (xs2 ++ bf2 :: ys2) =
        ((processFilesMT xs2).1 ++ (processFilesMT ys2).1,
         (processFilesMT xs2).2 ++
           ("Error processing " ++ bf2.name ++ ": " ++ e2) ::
             (processFilesMT ys2).2)) := by
  intro m dt tt p xs ys bf e xs2 ys2 bf2 e2 he he2
  constructor
  · have hbf : analyzeFileRisk m dt tt p bf =
        .error ("Error analyzing " ++ bf.name ++ ": " ++ e) := by
      simp [analyzeFileRisk, he]
    unfold processFilesRisk
    rw [accumulate_append, accumulate_cons_error hbf ys]
  · have hbf2 : analyzeFileMT bf2 =
        .error ("Error processing " ++ bf2.name ++ ": " ++ e2) := by
      simp [analyzeFileMT, he2]
    unfold processFilesMT
    rw [accumulate_append, accumulate_cons_error hbf2 ys2]

/-- C9, witness: a concrete batch for each loop, with a failing file between
(or after) good ones. -/
theorem C9_failure_isolation_witness :
    (processFilesRisk 7 (4 / 100) (1 / 2) 20 ([fileA] ++ fileBad :: [fileC]) =
      ((processFilesRisk 7 (4 / 100) (1 / 2) 20 [fileA]).1 ++
         (processFilesRisk 7 (4 / 100) (1 / 2) 20 [fileC]).1,
       (processFilesRisk 7 (4 / 100) (1 / 2) 20 [fileA]).2 ++
         ("Error analyzing " ++ fileBad.name ++ ": " ++
            "could not convert string to float") ::
           (processFilesRisk 7 (4 / 100) (1 / 2) 20 [fileC]).2)) ∧
    (processFilesMT ([mfileA] ++ mfileBad :: []) =
      ((processFilesMT [mfileA]).1 ++ (processFilesMT []).1,
       (processFilesMT [mfileA]).2 ++
         ("Error processing " ++ mfileBad.name ++ ": " ++ "boom") ::
           (processFilesMT []).2)) :=
  C9_failure_isolation 7 (4 / 100) (1 / 2) 20 [fileA] [fileC] fileBad
    "could not convert string to float" [mfileA] [] mfileBad "boom" rfl rfl

/-- C10: the extracted root is always an initial segment of the input symbol
(the function only removes a trailing suffix), and a symbol that does not end
in a digit run optionally followed by letters is returned unchanged. -/
theorem C10_root_symbol_shape :
    ∀ s : List Char,
      extract_root_symbol s <+: s ∧
      (endsDigitsLetters s = false → extract_root_symbol s = s) := by
  intro s
  cases hd : s.reverse.dropWhile Char.isAlpha with
  | nil =>
    rw [extract_root_symbol_nil hd]
    exact ⟨⟨[], List.append_nil s⟩, fun _ => rfl⟩
  | cons c t =>
    by_cases hc : c.isDigit
    · have hs := root_decomp hd
      have hf : extract_root_symbol s = (t.dropWhile Char.isDigit).reverse := by
        rw [extract_root_symbol_cons hd]
        simp [hc]
      constructor
      · exact ⟨((t.takeWhile Char.isDigit).reverse ++ [c]) ++
            (s.reverse.takeWhile Char.isAlpha).reverse, by rw [hf, ← hs]⟩
      · intro hfalse
        exfalso
        have hD : ∀ a ∈ (t.takeWhile Char.isDigit).reverse ++ [c],
            a.isDigit = true := by
          intro a ha
          rcases List.mem_append.mp ha with h1 | h1
          · exact List.mem_takeWhile_imp (List.mem_reverse.mp h1)
          · rw [List.mem_singleton.mp h1]; exact hc
        have hL : ∀ a ∈ (s.reverse.takeWhile Char.isAlpha).reverse,
            a.isAlpha = true := by
          intro a ha
          exact List.mem_takeWhile_imp (List.mem_reverse.mp ha)
        have hmatch : digitsThenLetters
            (((t.takeWhile Char.isDigit).reverse ++ [c]) ++
              (s.reverse.takeWhile Char.isAlpha).reverse) = true :=
          digitsThenLetters_of_parts (by simp) hD hL
        have hdrop : s.drop (t.dropWhile Char.isDigit).reverse.length =
            ((t.takeWhile Char.isDigit).reverse ++ [c]) ++
              (s.reverse.takeWhile Char.isAlpha).reverse := by
          conv_lhs => rw [hs]
          exact List.drop_left _ _
        have hlen : (t.dropWhile Char.isDigit).reverse.length < s.length := by
          conv_rhs => rw [hs]
          simp [List.length_append]
        have hend : endsDigitsLetters s = true := by
          unfold endsDigitsLetters
          rw [List.any_eq_true]
          exact ⟨(t.dropWhile Char.isDigit).reverse.length,
            List.mem_range.mpr hlen, by rw [hdrop]; exact hmatch⟩
        rw [hfalse] at hend
        exact Bool.false_ne_true hend
    · have hf : extract_root_symbol s = s := by
        rw [extract_root_symbol_cons hd]
        simp [hc]
      rw [hf]
      exact ⟨⟨[], List.append_nil s⟩, fun _ => rfl⟩

/-- C10, witness at the all-letter symbol ABC, which has no trailing digit
run and is returned unchanged. -/
theorem C10_root_symbol_shape_witness :
    extract_root_symbol ['A', 'B', 'C'] <+: ['A', 'B', 'C'] ∧
    (endsDigitsLetters ['A', 'B', 'C'] = false ∧
      extract_root_symbol ['A', 'B', 'C'] = ['A', 'B', 'C']) :=
  ⟨(C10_root_symbol_shape ['A', 'B', 'C']).1,
   by decide, (C10_root_symbol_shape ['A', 'B', 'C']).2 (by decide)⟩

end LiveAnalyzer
